import Mathlib

/-!
Shallow embedding of `src/tasks/pets_core.py` ("Учёт питомцев"):
the `Species` enumeration, the `Pet` dataclass with its eager validation,
and the `PetContainer` operations (add, find, sort, statistics, JSON
persistence).  Python exceptions are modelled with `Except`/result pairs,
the filesystem as a map from path to optional parse result, and JSON
values as an inductive type.
-/

deriving instance DecidableEq for Except

namespace PetsCore

/-- `class Species(Enum)` — the six members, in source order. -/
inductive Species where
  | CAT
  | DOG
  | BIRD
  | FISH
  | RODENT
  | OTHER
deriving DecidableEq, Repr

/-- The enum member values (display labels), e.g. `CAT = "кот"`. -/
def Species.value : Species → String
  | .CAT => "кот"
  | .DOG => "собака"
  | .BIRD => "птица"
  | .FISH => "рыба"
  | .RODENT => "грызун"
  | .OTHER => "другое"

/-- The enum member names, as used by `Species[...]` lookup and `pet.species.name`. -/
def Species.tag : Species → String
  | .CAT => "CAT"
  | .DOG => "DOG"
  | .BIRD => "BIRD"
  | .FISH => "FISH"
  | .RODENT => "RODENT"
  | .OTHER => "OTHER"

/-- `Species[s]`: exact, case-sensitive lookup of an enum member by name;
`none` models the `KeyError` raised when no member matches. -/
def speciesOfTag (s : String) : Option Species :=
  if s = "CAT" then some .CAT
  else if s = "DOG" then some .DOG
  else if s = "BIRD" then some .BIRD
  else if s = "FISH" then some .FISH
  else if s = "RODENT" then some .RODENT
  else if s = "OTHER" then some .OTHER
  else none

/-- Python `str.upper()`, modelled per character on the string's code
points (the ASCII fragment is what the program exercises). -/
def pyUpper (s : String) : String := ⟨s.data.map Char.toUpper⟩

/-- Python `str.replace(" ", "_")`: every space character becomes an underscore. -/
def pyReplaceSpaceUnderscore (s : String) : String :=
  ⟨s.data.map (fun c => if c = ' ' then '_' else c)⟩

/-- The normalisation applied to a raw species string before enum lookup:
`species_str.upper().replace(" ", "_")` (lines 66 and 102 of the source). -/
def normalizeSpecies (s : String) : String :=
  pyReplaceSpaceUnderscore (pyUpper s)

/-- The species conversion in `add_pet` (lines 64–69): normalise, look up,
and fall back to `OTHER` on `KeyError`. -/
def parseSpecies (s : String) : Species :=
  (speciesOfTag (normalizeSpecies s)).getD .OTHER

/-- The Python exceptions the core can raise, by kind. -/
inductive PyError where
  | valueError (msg : String)
  | keyError (key : String)
  | attributeError
  | typeError
  | fileNotFoundError (msg : String)
  | jsonDecodeError
deriving DecidableEq, Repr

/-- `@dataclass class Pet`: name, species, age.  Python ints are unbounded,
so `age : Int`. -/
structure Pet where
  name : String
  species : Species
  age : Int
deriving DecidableEq, Repr

/-- Python `not s.strip()`: true iff the string is empty or all whitespace. -/
def isBlank (s : String) : Bool := s.data.all Char.isWhitespace

/-- `Pet(...)` including `__post_init__` validation (lines 34–41):
blank name, negative age and age above 100 each raise `ValueError`. -/
def mkPet (name : String) (species : Species) (age : Int) : Except PyError Pet :=
  if isBlank name then .error (.valueError "Имя питомца не может быть пустым")
  else if age < 0 then .error (.valueError "Возраст не может быть отрицательным")
  else if age > 100 then .error (.valueError "Возраст слишком большой")
  else .ok ⟨name, species, age⟩

/-- `@dataclass class PetContainer`: the ordered list of pets. -/
structure PetContainer where
  pets : List Pet
deriving DecidableEq, Repr

/-- `add_pet` (lines 49–73): convert the species string with `OTHER`
fallback, construct the `Pet` (which may raise), append it, return it.
The pair returns the container state after the call together with the
result; on an exception the state is the unchanged receiver. -/
def addPet (c : PetContainer) (name speciesStr : String) (age : Int) :
    PetContainer × Except PyError Pet :=
  let species := parseSpecies speciesStr
  match mkPet name species age with
  | .error e => (c, .error e)
  | .ok pet => (⟨c.pets ++ [pet]⟩, .ok pet)

/-- `find_by_species` (lines 91–107): normalise and look up the query; on
`KeyError` return the empty list, otherwise filter the pets by that species. -/
def findBySpecies (c : PetContainer) (speciesStr : String) : List Pet :=
  match speciesOfTag (normalizeSpecies speciesStr) with
  | none => []
  | some species => c.pets.filter (fun pet => pet.species = species)

/-- Sort key `pet.name` as a relation (ties broken stably). -/
def nameLe (a b : Pet) : Prop := a.name ≤ b.name

/-- Sort key `pet.age`, ascending. -/
def ageLe (a b : Pet) : Prop := a.age ≤ b.age

/-- Sort key `pet.age` with `reverse=True`: descending, still stable. -/
def ageGe (a b : Pet) : Prop := b.age ≤ a.age

instance : DecidableRel nameLe := fun a b => inferInstanceAs (Decidable (a.name ≤ b.name))

instance : DecidableRel ageLe := fun a b => inferInstanceAs (Decidable (a.age ≤ b.age))

instance : DecidableRel ageGe := fun a b => inferInstanceAs (Decidable (b.age ≤ a.age))

instance : IsTotal Pet nameLe := ⟨fun a b => le_total a.name b.name⟩

instance : IsTrans Pet nameLe := ⟨fun _ _ _ h h' => le_trans h h'⟩

instance : IsTotal Pet ageLe := ⟨fun a b => le_total a.age b.age⟩

instance : IsTrans Pet ageLe := ⟨fun _ _ _ h h' => le_trans h h'⟩

instance : IsTotal Pet ageGe := ⟨fun a b => le_total b.age a.age⟩

instance : IsTrans Pet ageGe := ⟨fun _ _ _ h h' => le_trans h' h⟩

/-- `sort_by_age` (lines 109–111): Python's `list.sort` is a stable sort;
`reverse=True` sorts descending while ties keep their original order. -/
def sortByAge (c : PetContainer) (reverse : Bool) : PetContainer :=
  if reverse then ⟨c.pets.insertionSort ageGe⟩ else ⟨c.pets.insertionSort ageLe⟩

/-- `sort_by_name` (lines 113–115): stable sort by `pet.name`. -/
def sortByName (c : PetContainer) : PetContainer :=
  ⟨c.pets.insertionSort nameLe⟩

/-- JSON values, as produced by `json.load`.  Numbers are restricted to the
integers the program traffics in. -/
inductive Json where
  | str (s : String)
  | num (n : Int)
  | bool (b : Bool)
  | null
  | arr (items : List Json)
  | obj (fields : List (String × Json))

/-- One element of the list built by `save_to_file` (lines 127–132):
`asdict(pet)` with the species replaced by its enum name, giving keys
`name`, `species`, `age` in dataclass field order. -/
def petToJson (p : Pet) : Json :=
  .obj [("name", .str p.name), ("species", .str p.species.tag), ("age", .num p.age)]

/-- A filesystem snapshot: for each path, `none` when the file does not
exist, `some none` when it exists but `json.load` fails on its text, and
`some (some v)` when its text parses to the JSON value `v`. -/
def FileSystem : Type := String → Option (Option Json)

/-- `save_to_file` (lines 117–135): serialize every pet and overwrite the
file at `filename` with the resulting JSON array. -/
def saveToFile (c : PetContainer) (fs : FileSystem) (filename : String) : FileSystem :=
  fun p => if p = filename then some (some (.arr (c.pets.map petToJson))) else fs p

/-- Reconstruction of one pet inside the `load_from_file` loop
(lines 155–167): `pet_data.get('species', 'OTHER')` (an `AttributeError`
if the element is not an object), `Species[...]` with `OTHER` fallback,
then `Pet(name=pet_data['name'], species=species, age=pet_data['age'])` —
missing keys raise `KeyError`, a non-string name makes `name.strip()`
raise `AttributeError`, a non-numeric age makes `age < 0` raise
`TypeError` (a JSON boolean is a Python `int` and passes as 0 or 1), and
`__post_init__` may raise `ValueError`. -/
def petOfJson (j : Json) : Except PyError Pet :=
  match j with
  | .obj fields =>
    let species :=
      match fields.lookup "species" with
      | some (.str s) => (speciesOfTag s).getD .OTHER
      | some _ => Species.OTHER
      | none => Species.OTHER
    match fields.lookup "name" with
    | none => .error (.keyError "name")
    | some nameVal =>
      match fields.lookup "age" with
      | none => .error (.keyError "age")
      | some ageVal =>
        match nameVal with
        | .str name =>
          match ageVal with
          | .num a => mkPet name species a
          | .bool b => mkPet name species (if b then 1 else 0)
          | _ => .error .typeError
        | _ => .error .attributeError
  | _ => .error .attributeError

/-- Python `for pet_data in data`: a JSON array yields its items, a JSON
string yields its characters as one-character strings, a JSON object
yields its keys; numbers, booleans and null raise `TypeError`. -/
def jsonItems : Json → Except PyError (List Json)
  | .arr items => .ok items
  | .str s => .ok (s.data.map (fun c => Json.str ⟨[c]⟩))
  | .obj fields => .ok (fields.map (fun kv => Json.str kv.1))
  | _ => .error .typeError

/-- The `for` loop of `load_from_file`: append reconstructed pets one by
one; an exception propagates leaving the partial list in place. -/
def loadLoop (c : PetContainer) : List Json → PetContainer × Option PyError
  | [] => (c, none)
  | j :: js =>
    match petOfJson j with
    | .error e => (c, some e)
    | .ok p => loadLoop ⟨c.pets ++ [p]⟩ js

/-- `load_from_file` (lines 137–167): raise `FileNotFoundError` when the
path does not exist and `JSONDecodeError` when the text does not parse —
both before touching `self.pets` — then set `self.pets = []` and run the
reconstruction loop over the parsed value.  The pair is the container
state after the call together with the exception, if any. -/
def loadFromFile (c : PetContainer) (fs : FileSystem) (filename : String) :
    PetContainer × Option PyError :=
  match fs filename with
  | none => (c, some (.fileNotFoundError ("Файл " ++ filename ++ " не существует")))
  | some none => (c, some .jsonDecodeError)
  | some (some data) =>
    match jsonItems data with
    | .error e => (⟨[]⟩, some e)
    | .ok items => loadLoop ⟨[]⟩ items

/-- The dictionary returned by `get_statistics`, with optional keys
modelled as `Option` fields (`none` = key absent). -/
structure Stats where
  total : Nat
  average_age : Option ℚ
  by_species : Option (List (String × Nat))
deriving DecidableEq, Repr

/-- One step of `stats["by_species"][name] = stats["by_species"].get(name, 0) + 1`
on an insertion-ordered dictionary with unique keys. -/
def bumpCount : List (String × Nat) → String → List (String × Nat)
  | [], k => [(k, 1)]
  | (k', v) :: rest, k =>
    if k' = k then (k', v + 1) :: rest else (k', v) :: bumpCount rest k

/-- The `by_species` dictionary built by the loop on lines 185–187. -/
def bySpeciesCounts (pets : List Pet) : List (String × Nat) :=
  pets.foldl (fun m p => bumpCount m p.species.tag) []

/-- `get_statistics` (lines 169–189): `{"total": 0}` on an empty container;
otherwise total, exact average age (Python computes it with `/`, modelled
here as exact rational division) and per-species counts. -/
def getStatistics (c : PetContainer) : Stats :=
  if c.pets = [] then ⟨0, none, none⟩
  else
    ⟨c.pets.length,
     some (((c.pets.map (fun p => p.age)).sum : ℚ) / (c.pets.length : ℚ)),
     some (bySpeciesCounts c.pets)⟩

/-- A record satisfying the `Pet.__post_init__` constraints. -/
def validPet (p : Pet) : Prop := isBlank p.name = false ∧ 0 ≤ p.age ∧ p.age ≤ 100

instance (p : Pet) : Decidable (validPet p) :=
  inferInstanceAs (Decidable (_ ∧ _ ∧ _))

theorem speciesOfTag_tag (sp : Species) : speciesOfTag sp.tag = some sp := by
  cases sp <;> rfl

theorem mkPet_of_valid (p : Pet) (h : validPet p) :
    mkPet p.name p.species p.age = .ok p := by
  obtain ⟨h1, h2, h3⟩ := h
  simp [mkPet, h1, not_lt.mpr h2, not_lt.mpr h3]

/-- C2.  Record construction validation: construction succeeds iff the name
is not blank and `0 ≤ age ≤ 100`; on success the record's fields are the
given name (untrimmed), the parsed species and the given age; otherwise it
raises `ValueError` (the ValidationError kind). -/
theorem mkPet_validation (name speciesStr : String) (age : Int) :
    (isBlank name = false ∧ 0 ≤ age ∧ age ≤ 100 →
      mkPet name (parseSpecies speciesStr) age
        = .ok ⟨name, parseSpecies speciesStr, age⟩)
    ∧ (isBlank name = true ∨ age < 0 ∨ 100 < age →
      ∃ msg, mkPet name (parseSpecies speciesStr) age = .error (.valueError msg)) := by
  constructor
  · rintro ⟨h1, h2, h3⟩
    exact mkPet_of_valid ⟨name, parseSpecies speciesStr, age⟩ ⟨h1, h2, h3⟩
  · intro h
    unfold mkPet
    by_cases hb : isBlank name = true
    · rw [if_pos hb]
      exact ⟨_, rfl⟩
    · rw [if_neg hb]
      rcases h with h | h | h
      · exact absurd h hb
      · rw [if_pos h]
        exact ⟨_, rfl⟩
      · rw [if_neg (by omega), if_pos (show age > 100 from h)]
        exact ⟨_, rfl⟩

/-- Witness for C2 at concrete inputs: `("Барсик", "cat", 3)` constructs the
expected record and a blank name together with a negative age fail. -/
theorem mkPet_validation_witness :
    mkPet "Барсик" (parseSpecies "cat") 3 = .ok ⟨"Барсик", parseSpecies "cat", 3⟩
    ∧ ∃ msg, mkPet "  " (parseSpecies "dog") (-1) = .error (.valueError msg) :=
  ⟨(mkPet_validation "Барсик" "cat" 3).1 (by decide),
   (mkPet_validation "  " "dog" (-1)).2 (by decide)⟩

/-- C3, counterexample.  The claim states that parsing trims surrounding
whitespace, so that `" cat "` parses to `CAT`; in the code the spaces are
replaced by underscores (`"_CAT_"`), the lookup misses, and the result is
`OTHER`. -/
theorem parseSpecies_no_trim_counterexample :
    parseSpecies " cat " ≠ Species.CAT ∧ parseSpecies " cat " = Species.OTHER := by
  decide

/-- C3, amended.  Parsing uppercases, replaces every space (surrounding
whitespace included — there is no trimming) with an underscore, looks the
result up in the enumeration and returns `OTHER` on no match, never
raising; exact tag names parse to their tag case-insensitively, while the
empty string, unrecognized text, and a tag surrounded by whitespace such as
`" cat "` all parse to `OTHER`. -/
theorem parseSpecies_spec :
    (∀ s : String, parseSpecies s
        = (speciesOfTag (pyReplaceSpaceUnderscore (pyUpper s))).getD Species.OTHER)
    ∧ (∀ sp : Species, parseSpecies sp.tag = sp)
    ∧ parseSpecies "cat" = Species.CAT
    ∧ parseSpecies "Dog" = Species.DOG
    ∧ parseSpecies "" = Species.OTHER
    ∧ parseSpecies "DRAGON" = Species.OTHER
    ∧ parseSpecies " cat " = Species.OTHER := by
  refine ⟨fun s => rfl, fun sp => ?_, by decide, by decide, by decide, by decide, by decide⟩
  cases sp <;> rfl

/-- C4, counterexample.  The claim states that a query matching no
enumeration member returns the store's OTHER-tagged records, because search
would share creation's fallback parser.  On a store holding one
OTHER-tagged record, the unrecognized query `"DRAGON"` — which creation's
parser does send to `OTHER` — returns the empty list instead. -/
theorem findBySpecies_fallback_counterexample :
    parseSpecies "DRAGON" = Species.OTHER
    ∧ findBySpecies ⟨[⟨"Экзотик", Species.OTHER, 2⟩]⟩ "DRAGON" = []
    ∧ ([] : List Pet) ≠ [⟨"Экзотик", Species.OTHER, 2⟩] := by
  decide

/-- C4, amended.  Search normalises the query exactly as creation does, but
on a failed lookup it returns the empty list instead of falling back to
`OTHER`: a recognized query returns exactly the stored records whose tag
equals the parsed tag, in original relative order (a filter), and an
unrecognized query returns the empty list. -/
theorem findBySpecies_spec (c : PetContainer) (q : String) :
    (∀ sp, speciesOfTag (normalizeSpecies q) = some sp →
      parseSpecies q = sp
      ∧ findBySpecies c q = c.pets.filter (fun pet => pet.species = sp))
    ∧ (speciesOfTag (normalizeSpecies q) = none → findBySpecies c q = []) := by
  constructor
  · intro sp h
    constructor
    · simp [parseSpecies, h]
    · simp [findBySpecies, h]
  · intro h
    simp [findBySpecies, h]

/-- Witness for C4 at concrete inputs: the spec §8 example store queried
with `"cat"` returns its two CAT records in order, and an unrecognized
query on the same store returns the empty list. -/
theorem findBySpecies_spec_witness :
    findBySpecies ⟨[⟨"Барсик", Species.CAT, 3⟩, ⟨"Шарик", Species.DOG, 5⟩,
        ⟨"Мурка", Species.CAT, 2⟩]⟩ "cat"
      = [⟨"Барсик", Species.CAT, 3⟩, ⟨"Мурка", Species.CAT, 2⟩]
    ∧ findBySpecies ⟨[⟨"Барсик", Species.CAT, 3⟩, ⟨"Шарик", Species.DOG, 5⟩,
        ⟨"Мурка", Species.CAT, 2⟩]⟩ "UNKNOWN" = [] := by
  constructor
  · have h := ((findBySpecies_spec ⟨[⟨"Барсик", Species.CAT, 3⟩, ⟨"Шарик", Species.DOG, 5⟩,
        ⟨"Мурка", Species.CAT, 2⟩]⟩ "cat").1 Species.CAT (by decide)).2
    rw [h]
    decide
  · exact (findBySpecies_spec ⟨[⟨"Барсик", Species.CAT, 3⟩, ⟨"Шарик", Species.DOG, 5⟩,
        ⟨"Мурка", Species.CAT, 2⟩]⟩ "UNKNOWN").2 (by decide)

/-- C5.  `add_pet`: when record construction fails the exception propagates
and the sequence is exactly what it was before the call; when it succeeds
exactly the constructed record — whose fields are the inputs with the
parsed species — is appended at the end and returned. -/
theorem addPet_spec (c : PetContainer) (name speciesStr : String) (age : Int) :
    (∀ e, mkPet name (parseSpecies speciesStr) age = .error e →
      addPet c name speciesStr age = (c, .error e))
    ∧ (∀ p, mkPet name (parseSpecies speciesStr) age = .ok p →
      p = ⟨name, parseSpecies speciesStr, age⟩
      ∧ addPet c name speciesStr age = (⟨c.pets ++ [p]⟩, .ok p)) := by
  constructor
  · intro e h
    simp [addPet, h]
  · intro p h
    have hp : p = ⟨name, parseSpecies speciesStr, age⟩ := by
      unfold mkPet at h
      split_ifs at h
      cases h
      rfl
    exact ⟨hp, by simp [addPet, h]⟩

/-- Witness for C5 at concrete inputs: a valid add appends the record at
the end of a nonempty store and returns it; an out-of-range age propagates
the `ValueError` and leaves the store as it was. -/
theorem addPet_spec_witness :
    addPet ⟨[⟨"Барсик", Species.CAT, 3⟩]⟩ "Шарик" "dog" 5
      = (⟨[⟨"Барсик", Species.CAT, 3⟩] ++ [⟨"Шарик", parseSpecies "dog", 5⟩]⟩,
        .ok ⟨"Шарик", parseSpecies "dog", 5⟩)
    ∧ addPet ⟨[⟨"Барсик", Species.CAT, 3⟩]⟩ "Рекс" "dog" 150
      = (⟨[⟨"Барсик", Species.CAT, 3⟩]⟩, .error (.valueError "Возраст слишком большой")) :=
  ⟨((addPet_spec ⟨[⟨"Барсик", Species.CAT, 3⟩]⟩ "Шарик" "dog" 5).2
      ⟨"Шарик", parseSpecies "dog", 5⟩ (by decide)).2,
   (addPet_spec ⟨[⟨"Барсик", Species.CAT, 3⟩]⟩ "Рекс" "dog" 150).1
      (.valueError "Возраст слишком большой") (by decide)⟩

/-- C8.  `load_from_file` raises `FileNotFoundError` when the path does not
exist and `JSONDecodeError` when the file exists but its text is not valid
JSON; both checks happen before `self.pets` is touched, so the sequence is
exactly what it was before the call. -/
theorem loadFromFile_failures (c : PetContainer) (fs : FileSystem) (filename : String) :
    (fs filename = none →
      loadFromFile c fs filename
        = (c, some (.fileNotFoundError ("Файл " ++ filename ++ " не существует"))))
    ∧ (fs filename = some none →
      loadFromFile c fs filename = (c, some .jsonDecodeError)) := by
  constructor
  · intro h
    simp [loadFromFile, h]
  · intro h
    simp [loadFromFile, h]

/-- Witness for C8 at concrete inputs: a missing path and an unparseable
file each fail with the right error kind and leave the store unchanged. -/
theorem loadFromFile_failures_witness :
    loadFromFile ⟨[⟨"Барсик", Species.CAT, 3⟩]⟩ (fun _ => none) "nonexistent.json"
      = (⟨[⟨"Барсик", Species.CAT, 3⟩]⟩,
        some (.fileNotFoundError ("Файл " ++ "nonexistent.json" ++ " не существует")))
    ∧ loadFromFile ⟨[⟨"Барсик", Species.CAT, 3⟩]⟩ (fun _ => some none) "invalid.json"
      = (⟨[⟨"Барсик", Species.CAT, 3⟩]⟩, some .jsonDecodeError) :=
  ⟨(loadFromFile_failures ⟨[⟨"Барсик", Species.CAT, 3⟩]⟩ (fun _ => none)
      "nonexistent.json").1 rfl,
   (loadFromFile_failures ⟨[⟨"Барсик", Species.CAT, 3⟩]⟩ (fun _ => some none)
      "invalid.json").2 rfl⟩

theorem petOfJson_petToJson (p : Pet) (h : validPet p) :
    petOfJson (petToJson p) = .ok p := by
  simp [petToJson, petOfJson, List.lookup, speciesOfTag_tag, mkPet_of_valid p h]

theorem loadLoop_map_petToJson (l : List Pet) (h : ∀ p ∈ l, validPet p) :
    ∀ acc : PetContainer, loadLoop acc (l.map petToJson) = (⟨acc.pets ++ l⟩, none) := by
  induction l with
  | nil => intro acc; simp [loadLoop]
  | cons p l ih =>
    intro acc
    have hp : validPet p := h p (List.mem_cons_self p l)
    have hl : ∀ q ∈ l, validPet q := fun q hq => h q (List.mem_cons_of_mem p hq)
    simp only [List.map_cons, loadLoop, petOfJson_petToJson p hp]
    rw [ih hl ⟨acc.pets ++ [p]⟩]
    simp

/-- C1.  Round-trip law: for a store whose sequence consists of valid
records, `save_to_file` followed by `load_from_file` of the same path into
a fresh store reconstructs a sequence deep-equal to the original, in the
same order, with no exception. -/
theorem save_load_roundtrip (c : PetContainer) (fs : FileSystem) (filename : String)
    (h : ∀ p ∈ c.pets, validPet p) :
    loadFromFile ⟨[]⟩ (saveToFile c fs filename) filename = (c, none) := by
  have hload := loadLoop_map_petToJson c.pets h ⟨[]⟩
  simp only [loadFromFile, saveToFile, if_pos rfl, jsonItems]
  simpa using hload

/-- Witness for C1 at a concrete store of four valid records covering
several species (including a non-ASCII name and boundary-adjacent ages). -/
theorem save_load_roundtrip_witness :
    loadFromFile ⟨[]⟩
      (saveToFile ⟨[⟨"Барсик", Species.CAT, 3⟩, ⟨"Мурка", Species.CAT, 5⟩,
          ⟨"Шарик", Species.DOG, 0⟩, ⟨"Кеша", Species.BIRD, 100⟩]⟩ (fun _ => none) "pets.json")
      "pets.json"
    = (⟨[⟨"Барсик", Species.CAT, 3⟩, ⟨"Мурка", Species.CAT, 5⟩,
          ⟨"Шарик", Species.DOG, 0⟩, ⟨"Кеша", Species.BIRD, 100⟩]⟩, none) :=
  save_load_roundtrip ⟨[⟨"Барсик", Species.CAT, 3⟩, ⟨"Мурка", Species.CAT, 5⟩,
      ⟨"Шарик", Species.DOG, 0⟩, ⟨"Кеша", Species.BIRD, 100⟩]⟩ (fun _ => none) "pets.json"
    (by decide)

/-- C10.  `load_from_file` never fails because of a record's species field:
an unrecognized species tag value (any string the enumeration lookup
misses, e.g. `"DRAGON"`) is coerced to `OTHER`, and a record object with no
`species` key at all also reconstructs with species `OTHER`; a whole-file
load of such a record succeeds. -/
theorem load_species_leniency (c0 : PetContainer) (fs : FileSystem) (f : String)
    (name s : String) (age : Int)
    (hp : validPet ⟨name, Species.OTHER, age⟩) (hs : speciesOfTag s = none) :
    petOfJson (.obj [("name", .str name), ("species", .str s), ("age", .num age)])
      = .ok ⟨name, Species.OTHER, age⟩
    ∧ petOfJson (.obj [("name", .str name), ("age", .num age)])
      = .ok ⟨name, Species.OTHER, age⟩
    ∧ (fs f = some (some (.arr [.obj [("name", .str name), ("species", .str s),
          ("age", .num age)]])) →
        loadFromFile c0 fs f = (⟨[⟨name, Species.OTHER, age⟩]⟩, none)) := by
  have h1 : petOfJson (.obj [("name", .str name), ("species", .str s), ("age", .num age)])
      = .ok ⟨name, Species.OTHER, age⟩ := by
    simp [petOfJson, List.lookup, hs, mkPet_of_valid ⟨name, Species.OTHER, age⟩ hp]
  refine ⟨h1, ?_, ?_⟩
  · simp [petOfJson, List.lookup, mkPet_of_valid ⟨name, Species.OTHER, age⟩ hp]
  · intro hf
    simp [loadFromFile, hf, jsonItems, loadLoop, h1]

/-- Witness for C10 at concrete inputs: a record with species `"DRAGON"`
and a record with no species key both load as `OTHER`, and a whole-file
load of the `"DRAGON"` record succeeds. -/
theorem load_species_leniency_witness :
    petOfJson (.obj [("name", .str "Смауг"), ("species", .str "DRAGON"), ("age", .num 7)])
      = .ok ⟨"Смауг", Species.OTHER, 7⟩
    ∧ petOfJson (.obj [("name", .str "Смауг"), ("age", .num 7)])
      = .ok ⟨"Смауг", Species.OTHER, 7⟩
    ∧ loadFromFile ⟨[⟨"Барсик", Species.CAT, 3⟩]⟩
        (fun _ => some (some (.arr [.obj [("name", .str "Смауг"), ("species", .str "DRAGON"),
            ("age", .num 7)]])))
        "pets.json"
      = (⟨[⟨"Смауг", Species.OTHER, 7⟩]⟩, none) := by
  have h := load_species_leniency ⟨[⟨"Барсик", Species.CAT, 3⟩]⟩
    (fun _ => some (some (.arr [.obj [("name", .str "Смауг"), ("species", .str "DRAGON"),
        ("age", .num 7)]])))
    "pets.json" "Смауг" "DRAGON" 7 (by decide) (by decide)
  exact ⟨h.1, h.2.1, h.2.2 rfl⟩

theorem lookup_bumpCount (m : List (String × Nat)) (k s : String) :
    (bumpCount m k).lookup s
      = if s = k then some (((m.lookup s).getD 0) + 1) else m.lookup s := by
  induction m with
  | nil =>
    by_cases h : s = k
    · simp [bumpCount, List.lookup, h]
    · simp [bumpCount, List.lookup, h, beq_eq_false_iff_ne.mpr h]
  | cons kv rest ih =>
    obtain ⟨k', v⟩ := kv
    by_cases hk : k' = k
    · subst hk
      by_cases hs : s = k'
      · subst hs
        simp [bumpCount, List.lookup]
      · simp [bumpCount, List.lookup, hs, beq_eq_false_iff_ne.mpr hs]
    · by_cases hs : s = k'
      · subst hs
        simp [bumpCount, hk, List.lookup, if_neg (fun h : s = k => hk (h ▸ rfl))]
      · simp [bumpCount, hk, List.lookup, beq_eq_false_iff_ne.mpr hs, ih]

theorem lookup_foldl_bumpCount (l : List Pet) (s : String) :
    ∀ m : List (String × Nat),
      ((l.foldl (fun m p => bumpCount m p.species.tag) m).lookup s)
        = if l.countP (fun p => p.species.tag == s) = 0 then m.lookup s
          else some (((m.lookup s).getD 0) + l.countP (fun p => p.species.tag == s)) := by
  induction l with
  | nil => intro m; simp
  | cons p l ih =>
    intro m
    rw [List.foldl_cons, ih (bumpCount m p.species.tag), List.countP_cons]
    by_cases hs : p.species.tag = s
    · subst hs
      rw [lookup_bumpCount]
      by_cases hc : l.countP (fun q => q.species.tag == p.species.tag) = 0
      · simp [hc]
      · have h1 : l.countP (fun q => q.species.tag == p.species.tag) + 1 ≠ 0 := by omega
        simp only [beq_self_eq_true, if_true, if_pos rfl, if_neg hc, if_neg h1,
          Option.getD_some, Option.some.injEq]
        omega
    · have hb : (p.species.tag == s) = false := beq_eq_false_iff_ne.mpr hs
      rw [lookup_bumpCount, if_neg (fun h : s = p.species.tag => hs h.symm), hb]
      simp

theorem lookup_bySpeciesCounts (pets : List Pet) (s : String) :
    (bySpeciesCounts pets).lookup s
      = if pets.countP (fun p => p.species.tag == s) = 0 then none
        else some (pets.countP (fun p => p.species.tag == s)) := by
  rw [bySpeciesCounts, lookup_foldl_bumpCount]
  rcases h : pets.countP (fun p => p.species.tag == s) with _ | n <;> simp [List.lookup]

/-- C6.  `get_statistics`: on an empty store the result is `{total: 0}`
with the average-age and by-species keys absent; on a non-empty store the
result has `total` equal to the record count, `average_age` equal to the
exact arithmetic mean of the ages (Python's float division modelled as
exact rational division), and `by_species` a count map whose keys are
exactly the species tags present in the store, each mapped to the number
of records carrying that tag. -/
theorem getStatistics_spec (c : PetContainer) :
    (c.pets = [] → getStatistics c = ⟨0, none, none⟩)
    ∧ (c.pets ≠ [] →
        (getStatistics c).total = c.pets.length
        ∧ (getStatistics c).average_age
            = some (((c.pets.map (fun p => p.age)).sum : ℚ) / (c.pets.length : ℚ))
        ∧ ∃ counts, (getStatistics c).by_species = some counts
            ∧ ∀ s : String, counts.lookup s
                = if c.pets.countP (fun p => p.species.tag == s) = 0 then none
                  else some (c.pets.countP (fun p => p.species.tag == s))) := by
  constructor
  · intro h
    simp [getStatistics, h]
  · intro h
    refine ⟨?_, ?_, bySpeciesCounts c.pets, ?_, fun s => lookup_bySpeciesCounts c.pets s⟩
    · simp [getStatistics, h]
    · simp [getStatistics, h]
    · simp [getStatistics, h]

/-- Witness for C6: the empty store yields `⟨0, none, none⟩`, and the spec
§8 store with ages `[3,5,2,1]` yields `total = 4`, an average age of
`11/4 = 2.75`, and by-species counts `CAT 2, DOG 1, BIRD 1` with absent
tags looked up as `none`. -/
theorem getStatistics_spec_witness :
    getStatistics ⟨[]⟩ = ⟨0, none, none⟩
    ∧ (getStatistics ⟨[⟨"Барсик", Species.CAT, 3⟩, ⟨"Мурка", Species.CAT, 5⟩,
        ⟨"Шарик", Species.DOG, 2⟩, ⟨"Кеша", Species.BIRD, 1⟩]⟩).total = 4
    ∧ (getStatistics ⟨[⟨"Барсик", Species.CAT, 3⟩, ⟨"Мурка", Species.CAT, 5⟩,
        ⟨"Шарик", Species.DOG, 2⟩, ⟨"Кеша", Species.BIRD, 1⟩]⟩).average_age
        = some ((11 : ℚ) / 4)
    ∧ ∃ counts, (getStatistics ⟨[⟨"Барсик", Species.CAT, 3⟩, ⟨"Мурка", Species.CAT, 5⟩,
        ⟨"Шарик", Species.DOG, 2⟩, ⟨"Кеша", Species.BIRD, 1⟩]⟩).by_species = some counts
        ∧ counts.lookup "CAT" = some 2
        ∧ counts.lookup "DOG" = some 1
        ∧ counts.lookup "BIRD" = some 1
        ∧ counts.lookup "FISH" = none := by
  have he := (getStatistics_spec ⟨[]⟩).1 rfl
  have h := (getStatistics_spec ⟨[⟨"Барсик", Species.CAT, 3⟩, ⟨"Мурка", Species.CAT, 5⟩,
      ⟨"Шарик", Species.DOG, 2⟩, ⟨"Кеша", Species.BIRD, 1⟩]⟩).2 (by decide)
  obtain ⟨h1, h2, counts, h3, h4⟩ := h
  refine ⟨he, by rw [h1]; decide, ?_, counts, h3, ?_, ?_, ?_, ?_⟩
  · rw [h2]
    norm_num
  · rw [h4 "CAT"]; decide
  · rw [h4 "DOG"]; decide
  · rw [h4 "BIRD"]; decide
  · rw [h4 "FISH"]; decide

theorem filter_orderedInsert_pos {α : Type} (r : α → α → Prop) [DecidableRel r]
    (p : α → Bool) (a : α) (ha : p a = true) (hr : ∀ b, p b = true → r a b) :
    ∀ l : List α, (l.orderedInsert r a).filter p = a :: l.filter p := by
  intro l
  induction l with
  | nil => simp [List.orderedInsert, ha]
  | cons b l ih =>
    by_cases hb : r a b
    · simp [List.orderedInsert, hb, ha]
    · have hpb : p b = false := by
        cases h : p b
        · rfl
        · exact absurd (hr b h) hb
      simp [List.orderedInsert, hb, hpb, ih]

theorem filter_orderedInsert_neg {α : Type} (r : α → α → Prop) [DecidableRel r]
    (p : α → Bool) (a : α) (ha : p a = false) :
    ∀ l : List α, (l.orderedInsert r a).filter p = l.filter p := by
  intro l
  induction l with
  | nil => simp [List.orderedInsert, ha]
  | cons b l ih =>
    by_cases hb : r a b
    · simp [List.orderedInsert, hb, ha]
    · cases hpb : p b <;> simp [List.orderedInsert, hb, hpb, ih]

theorem filter_insertionSort {α : Type} (r : α → α → Prop) [DecidableRel r]
    (p : α → Bool) (hp : ∀ a b, p a = true → p b = true → r a b) :
    ∀ l : List α, (l.insertionSort r).filter p = l.filter p := by
  intro l
  induction l with
  | nil => rfl
  | cons a l ih =>
    cases ha : p a
    · rw [List.insertionSort, filter_orderedInsert_neg r p a ha, ih,
        List.filter_cons_of_neg (by simp [ha])]
    · rw [List.insertionSort,
        filter_orderedInsert_pos r p a ha (fun b hb => hp a b ha hb), ih,
        List.filter_cons_of_pos (by simp [ha])]

/-- C7.  `sort_by_name` reorders the sequence into non-decreasing order by
name under lexicographic (code-point) string comparison, and `sort_by_age`
into non-decreasing order by age (non-increasing with `reverse=True`); all
three sorts are permutations of the original sequence (the multiset of
records is unchanged) and stable: for each key value, the records carrying
that key appear in exactly their pre-sort relative order. -/
theorem sort_correct_and_stable (c : PetContainer) :
    ((sortByName c).pets.Sorted nameLe
      ∧ (sortByName c).pets.Perm c.pets
      ∧ ∀ k : String, (sortByName c).pets.filter (fun p => p.name == k)
          = c.pets.filter (fun p => p.name == k))
    ∧ ((sortByAge c false).pets.Sorted ageLe
      ∧ (sortByAge c false).pets.Perm c.pets
      ∧ ∀ k : Int, (sortByAge c false).pets.filter (fun p => p.age == k)
          = c.pets.filter (fun p => p.age == k))
    ∧ ((sortByAge c true).pets.Sorted ageGe
      ∧ (sortByAge c true).pets.Perm c.pets
      ∧ ∀ k : Int, (sortByAge c true).pets.filter (fun p => p.age == k)
          = c.pets.filter (fun p => p.age == k)) := by
  refine ⟨⟨?_, ?_, ?_⟩, ⟨?_, ?_, ?_⟩, ⟨?_, ?_, ?_⟩⟩
  · exact List.sorted_insertionSort nameLe c.pets
  · exact List.perm_insertionSort nameLe c.pets
  · intro k
    exact filter_insertionSort nameLe (fun p => p.name == k)
      (fun a b ha hb => le_of_eq ((beq_iff_eq.mp ha).trans (beq_iff_eq.mp hb).symm)) c.pets
  · exact List.sorted_insertionSort ageLe c.pets
  · exact List.perm_insertionSort ageLe c.pets
  · intro k
    exact filter_insertionSort ageLe (fun p => p.age == k)
      (fun a b ha hb => le_of_eq ((beq_iff_eq.mp ha).trans (beq_iff_eq.mp hb).symm)) c.pets
  · exact List.sorted_insertionSort ageGe c.pets
  · exact List.perm_insertionSort ageGe c.pets
  · intro k
    exact filter_insertionSort ageGe (fun p => p.age == k)
      (fun a b ha hb => le_of_eq ((beq_iff_eq.mp hb).trans (beq_iff_eq.mp ha).symm)) c.pets

/-- C9, counterexample.  The claim states that every operation — including
`load_from_file` on any content — either completes or raises leaving the
sequence exactly as before.  Loading well-formed JSON whose second record
has a blank name over a store holding one record raises `ValueError`, yet
leaves the sequence holding the first file record: neither the specified
transformation nor the pre-call sequence. -/
theorem load_not_atomic_counterexample :
    loadFromFile ⟨[⟨"Барсик", Species.CAT, 3⟩]⟩
      (fun _ => some (some (.arr
        [.obj [("name", .str "A"), ("species", .str "CAT"), ("age", .num 3)],
         .obj [("name", .str "  "), ("species", .str "CAT"), ("age", .num 3)]])))
      "pets.json"
      = (⟨[⟨"A", Species.CAT, 3⟩]⟩, some (.valueError "Имя питомца не может быть пустым"))
    ∧ (⟨[⟨"A", Species.CAT, 3⟩]⟩ : PetContainer) ≠ ⟨[⟨"Барсик", Species.CAT, 3⟩]⟩ := by
  constructor
  · decide
  · decide

/-- C9, amended.  `add_pet` is atomic (an exception from record
construction leaves the sequence exactly as it was), and `load_from_file`
is atomic for its `FileNotFoundError` and `JSONDecodeError` failures, both
raised before the sequence is touched; but `load_from_file` clears the
sequence before its reconstruction loop, so a failure on an individual
record (blank name, out-of-range age, missing key) leaves the sequence
cleared or partially replaced rather than as it was before the call. -/
theorem atomicity_amended (c : PetContainer) (name speciesStr : String) (age : Int)
    (fs : FileSystem) (f : String) :
    (∀ e, (addPet c name speciesStr age).2 = .error e →
      (addPet c name speciesStr age).1 = c)
    ∧ (fs f = none →
      loadFromFile c fs f = (c, some (.fileNotFoundError ("Файл " ++ f ++ " не существует"))))
    ∧ (fs f = some none → loadFromFile c fs f = (c, some .jsonDecodeError))
    ∧ (∀ data items j js, fs f = some (some data) → jsonItems data = .ok items →
        items = j :: js → (∀ e, petOfJson j = .error e →
          loadFromFile c fs f = (⟨[]⟩, some e))) := by
  refine ⟨?_, ?_, ?_, ?_⟩
  · intro e h
    simp only [addPet] at h ⊢
    rcases hmk : mkPet name (parseSpecies speciesStr) age with e' | p <;>
      simp [hmk] at h ⊢
  · intro h
    simp [loadFromFile, h]
  · intro h
    simp [loadFromFile, h]
  · intro data items j js hdata hitems hcons e hpet
    simp [loadFromFile, hdata, hitems, hcons, loadLoop, hpet]

/-- Witness for C9 at concrete inputs: a failing add leaves the store
unchanged; a load from a missing path and from an unparseable file leave it
unchanged; a load whose first record has a blank name raises after the
sequence was already cleared. -/
theorem atomicity_amended_witness :
    (addPet ⟨[⟨"Барсик", Species.CAT, 3⟩]⟩ "Рекс" "dog" (-1)).1
      = ⟨[⟨"Барсик", Species.CAT, 3⟩]⟩
    ∧ loadFromFile ⟨[⟨"Барсик", Species.CAT, 3⟩]⟩ (fun _ => none) "missing.json"
      = (⟨[⟨"Барсик", Species.CAT, 3⟩]⟩,
        some (.fileNotFoundError ("Файл " ++ "missing.json" ++ " не существует")))
    ∧ loadFromFile ⟨[⟨"Барсик", Species.CAT, 3⟩]⟩ (fun _ => some none) "bad.json"
      = (⟨[⟨"Барсик", Species.CAT, 3⟩]⟩, some .jsonDecodeError)
    ∧ loadFromFile ⟨[⟨"Барсик", Species.CAT, 3⟩]⟩
        (fun _ => some (some (.arr [.obj [("name", .str " "), ("species", .str "CAT"),
            ("age", .num 3)]])))
        "pets.json"
      = (⟨[]⟩, some (.valueError "Имя питомца не может быть пустым")) := by
  refine ⟨?_, ?_, ?_, ?_⟩
  · exact (atomicity_amended ⟨[⟨"Барсик", Species.CAT, 3⟩]⟩ "Рекс" "dog" (-1)
      (fun _ => none) "x").1 (.valueError "Возраст не может быть отрицательным") (by decide)
  · exact (atomicity_amended ⟨[⟨"Барсик", Species.CAT, 3⟩]⟩ "Рекс" "dog" (-1)
      (fun _ => none) "missing.json").2.1 rfl
  · exact (atomicity_amended ⟨[⟨"Барсик", Species.CAT, 3⟩]⟩ "Рекс" "dog" (-1)
      (fun _ => some none) "bad.json").2.2.1 rfl
  · exact (atomicity_amended ⟨[⟨"Барсик", Species.CAT, 3⟩]⟩ "Рекс" "dog" (-1)
      (fun _ => some (some (.arr [.obj [("name", .str " "), ("species", .str "CAT"),
          ("age", .num 3)]])))
      "pets.json").2.2.2
      (.arr [.obj [("name", .str " "), ("species", .str "CAT"), ("age", .num 3)]])
      [.obj [("name", .str " "), ("species", .str "CAT"), ("age", .num 3)]]
      (.obj [("name", .str " "), ("species", .str "CAT"), ("age", .num 3)]) [] rfl rfl rfl
      (.valueError "Имя питомца не может быть пустым") (by decide)

end PetsCore
